import Mathlib

/-!
Shallow embedding of the `github-release-stats` API client
(`src/lib/ghstats.ts`): the `GithubStats` class, its paginated private
`fetch`, token resolution in the constructor, and the download-count
reductions.  The HTTP transport is modelled as an ordered queue of mock
calls (as in the jest-fetch-mock test-suite of the repository): each network
request consumes the head of the queue, and the embedding additionally
returns the ordered log of requests that were issued.
-/

namespace GhStats

/-- An asset object (`interface GithubAsset { download_count: number }`).
The counters are integers, added with JavaScript `+`. -/
structure GithubAsset where
  download_count : Int
deriving Repr, DecidableEq

/-- A parsed JSON object as far as this client inspects one: it may carry a
`message` field (error bodies) and an `assets` field (release bodies).
`none` models an absent field (JavaScript `undefined`). -/
structure JsonObj where
  message : Option String
  assets : Option (List GithubAsset)
deriving Repr, DecidableEq

/-- A parsed JSON value returned by `response.json()`: a lone object or an
array of objects. -/
inductive JsonVal where
  | obj (o : JsonObj)
  | arr (elems : List JsonObj)
deriving Repr, DecidableEq

/-- The body of a mock response: either text that parses to a JSON value, or
text whose parse fails (`invalid e` carries the parse-error value that
`response.json()` rejects with). -/
inductive JsonBody where
  | jsonVal (v : JsonVal)
  | invalid (e : String)
deriving Repr, DecidableEq

/-- One mock HTTP response: `ok` status flag, optional `link` header value,
and the body. -/
structure MockResponse where
  ok : Bool
  link : Option String
  body : JsonBody
deriving Repr, DecidableEq

/-- One entry of the mock transport queue: a response, or a rejection of the
network call itself carrying the rejected error value. -/
inductive MockCall where
  | response (r : MockResponse)
  | reject (e : String)
deriving Repr, DecidableEq

/-- An error escaping the client: either a `GithubError` thrown by `fetch`
on a non-ok status, or some other error value propagated unchanged
(network rejections, JSON parse failures, runtime `TypeError`s). -/
inductive JsError where
  | githubError (message : String)
  | raw (e : String)
deriving Repr, DecidableEq

/-- `GithubError.message` / the display text of an error
(`GithubError` stores the service message via super). -/
def JsError.text : JsError → String
  | JsError.githubError m => m
  | JsError.raw e => e

/-- `error.name`: the `GithubError` constructor sets its name field to `GithubError`; a propagated plain `Error` keeps the default name. -/
def JsError.errName : JsError → String
  | JsError.githubError _ => ("GithubError")
  | JsError.raw _ => ("Error")

/-- An issued HTTP request as observed by the mock transport: URL, method,
header list, optional body. -/
structure Request where
  url : String
  method : String
  headers : List (String × String)
  body : Option String
deriving Repr, DecidableEq

/-- The headers built at the top of `GithubStats.fetch`:
`User-Agent: github-release-stats` when `self` is undefined
(i.e. outside a browser-like sandbox), and `Authorization: token <t>` when
the token string is truthy (non-empty).  Nothing else is appended. -/
def buildHeaders (sandboxed : Bool) (token : String) : List (String × String) :=
  (if sandboxed then [] else [("User-Agent", "github-release-stats")]) ++
    (if token = ("") then [] else [("Authorization", ("token ") ++ token)])

/-- The request sent by the fetch call: a GET with
the built headers and no body. -/
def mkRequest (sandboxed : Bool) (token : String) (url : String) : Request :=
  ⟨url, ("GET"), buildHeaders sandboxed token, none⟩

/-- The pattern `>; rel="next"` of the link-header regular expression. -/
def relNextPat : List Char := (">; rel=\"next\"").toList

/-- `header.match(/^.*<(.*)>; rel="next"/)`, capture group 1.
Both `.*` are greedy, so the first one stops at the last `<` that still
leaves an occurrence of `>; rel="next"` behind it, and the capture extends
to the last such occurrence: the captured text runs from the character
after that `<` up to the `>` of the last `>; rel="next"` in the header. -/
def matchNextRel (header : String) : Option String :=
  let s := header.toList
  let occIdx := (List.range (s.length + 1)).filter
    (fun i => decide ((s.drop i).take relNextPat.length = relNextPat))
  match occIdx.getLast? with
  | none => none
  | some j =>
    let ltIdx := (List.range j).filter (fun i => decide (s.getD i (' ') = '<'))
    match ltIdx.getLast? with
    | none => none
    | some i => some (String.mk ((s.drop (i + 1)).take (j - (i + 1))))

/-- `[await response.json()].flat()`: a lone object is wrapped into a
one-element array, an array is flattened back to itself. -/
def normalizeBody : JsonVal → List JsonObj
  | JsonVal.obj o => [o]
  | JsonVal.arr es => es

/-- `(await response.json()).message` on an error body, as fed to
`new GithubError(...)`: the `message` field if present; a body without a
`message` field yields `undefined`, and `new Error(undefined)` leaves the
message empty. -/
def jsonMessage : JsonVal → String
  | JsonVal.obj o => o.message.getD ("")
  | JsonVal.arr _ => ("")

/-- The private `GithubStats.fetch(url)`, run against the mock transport
queue: issues a GET for `url` consuming the head of the queue; on a non-ok
status throws `GithubError((await response.json()).message)`; on success,
if the `link` header matches `/^.*<(.*)>; rel="next"/` it first recursively
fetches the captured URL (consuming the rest of the queue), then prepends
the normalized records of the current page to the recursive tail.  Returns the
result together with the ordered log of issued requests.  An exhausted
queue models a failing transport (rejected call). -/
def fetchGo (sandboxed : Bool) (token : String) :
    String → List MockCall → Except JsError (List JsonObj) × List Request
  | url, [] =>
    (Except.error (JsError.raw ("FetchError: no response")), [mkRequest sandboxed token url])
  | url, MockCall.reject e :: _ =>
    (Except.error (JsError.raw e), [mkRequest sandboxed token url])
  | url, MockCall.response resp :: rest =>
    if resp.ok then
      match resp.link.bind matchNextRel with
      | some nextUrl =>
        match fetchGo sandboxed token nextUrl rest with
        | (Except.error e, reqs) =>
          (Except.error e, mkRequest sandboxed token url :: reqs)
        | (Except.ok tailRecords, reqs) =>
          match resp.body with
          | JsonBody.invalid e =>
            (Except.error (JsError.raw e), mkRequest sandboxed token url :: reqs)
          | JsonBody.jsonVal v =>
            (Except.ok (normalizeBody v ++ tailRecords), mkRequest sandboxed token url :: reqs)
      | none =>
        match resp.body with
        | JsonBody.invalid e =>
          (Except.error (JsError.raw e), [mkRequest sandboxed token url])
        | JsonBody.jsonVal v =>
          (Except.ok (normalizeBody v), [mkRequest sandboxed token url])
    else
      match resp.body with
      | JsonBody.invalid e =>
        (Except.error (JsError.raw e), [mkRequest sandboxed token url])
      | JsonBody.jsonVal v =>
        (Except.error (JsError.githubError (jsonMessage v)), [mkRequest sandboxed token url])

/-- The `GithubStats` instance state: repository owner and name, and the
token resolved at construction.  All fields are `readonly` in the source
and never reassigned. -/
structure GithubStats where
  repoOwner : String
  repoName : String
  token : String
deriving Repr, DecidableEq

/-- The constructor.  `sandboxed` models `self` being defined
(browser-like environment); `envToken` models `process.env.GITHUB_TOKEN`
(`none` = unset).  Outside a sandbox the token is
`token OR process.env.GITHUB_TOKEN OR empty` (JavaScript truthiness: an empty
string falls through); inside a sandbox the parameter is taken as-is. -/
def GithubStats.create (sandboxed : Bool) (envToken : Option String)
    (repoOwner repoName : String) (token : String) : GithubStats :=
  if sandboxed then ⟨repoOwner, repoName, token⟩
  else ⟨repoOwner, repoName,
    if token = ("") then
      (if envToken.getD ("") = ("") then ("") else envToken.getD ("")) else token⟩

/-- `https://api.github.com/repos/{owner}/{repo}/releases?per_page=100` -/
def GithubStats.allReleasesUrl (gh : GithubStats) : String :=
  ("https://api.github.com/repos/") ++ gh.repoOwner ++ ("/") ++ gh.repoName ++
    ("/releases?per_page=100")

/-- `https://api.github.com/repos/{owner}/{repo}/releases/tags/{tag}` -/
def GithubStats.releaseTagUrl (gh : GithubStats) (tag : String) : String :=
  ("https://api.github.com/repos/") ++ gh.repoOwner ++ ("/") ++ gh.repoName ++
    ("/releases/tags/") ++ tag

/-- `https://api.github.com/repos/{owner}/{repo}/releases/latest` -/
def GithubStats.latestReleaseUrl (gh : GithubStats) : String :=
  ("https://api.github.com/repos/") ++ gh.repoOwner ++ ("/") ++ gh.repoName ++
    ("/releases/latest")

/-- `getAllReleases()`: fetch the listing endpoint with pagination. -/
def GithubStats.getAllReleases (gh : GithubStats) (sandboxed : Bool)
    (net : List MockCall) : Except JsError (List JsonObj) × List Request :=
  fetchGo sandboxed gh.token gh.allReleasesUrl net

/-- `getRelease(tag)`: fetch the tag endpoint and return `response[0]`
(`none` models `undefined` when the normalized array is empty). -/
def GithubStats.getRelease (gh : GithubStats) (sandboxed : Bool) (tag : String)
    (net : List MockCall) : Except JsError (Option JsonObj) × List Request :=
  match fetchGo sandboxed gh.token (gh.releaseTagUrl tag) net with
  | (Except.error e, reqs) => (Except.error e, reqs)
  | (Except.ok records, reqs) => (Except.ok records.head?, reqs)

/-- `getLatestRelease()`: fetch the latest endpoint and return
`response[0]`. -/
def GithubStats.getLatestRelease (gh : GithubStats) (sandboxed : Bool)
    (net : List MockCall) : Except JsError (Option JsonObj) × List Request :=
  match fetchGo sandboxed gh.token gh.latestReleaseUrl net with
  | (Except.error e, reqs) => (Except.error e, reqs)
  | (Except.ok records, reqs) => (Except.ok records.head?, reqs)

/-- `assets.reduce((acc, asset) => acc + asset.download_count, 0)`. -/
def sumDownloads (assets : List GithubAsset) : Int :=
  assets.foldl (fun acc a => acc + a.download_count) 0

/-- The outer reduce of `getTotalDownloads`, with explicit accumulator:
`releases.reduce((acc, release) => acc + release.assets.reduce(..., 0), 0)`.
A release whose `assets` field is absent makes `undefined.reduce` throw a
`TypeError`, aborting the reduction. -/
def reduceTotal : List JsonObj → Int → Except JsError Int
  | [], acc => Except.ok acc
  | r :: restReleases, acc =>
    match r.assets with
    | none =>
      Except.error (JsError.raw ("TypeError: Cannot read properties of undefined (reading reduce)"))
    | some assets => reduceTotal restReleases (acc + sumDownloads assets)

/-- `getTotalDownloads()`: fetch all releases, then the nested reduce with
both accumulators starting at 0. -/
def GithubStats.getTotalDownloads (gh : GithubStats) (sandboxed : Bool)
    (net : List MockCall) : Except JsError Int × List Request :=
  match gh.getAllReleases sandboxed net with
  | (Except.error e, reqs) => (Except.error e, reqs)
  | (Except.ok releases, reqs) => (reduceTotal releases 0, reqs)

/-- `release.assets.reduce((acc, asset) => acc + asset.download_count, 0)`
on the result of a single-release query: `undefined` (`none`) release or
absent `assets` field raises a `TypeError`. -/
def downloadsOf : Option JsonObj → Except JsError Int
  | none =>
    Except.error (JsError.raw ("TypeError: Cannot read properties of undefined (reading assets)"))
  | some r =>
    match r.assets with
    | none =>
      Except.error (JsError.raw ("TypeError: Cannot read properties of undefined (reading reduce)"))
    | some assets => Except.ok (sumDownloads assets)

/-- `getReleaseDownloads(tag)`. -/
def GithubStats.getReleaseDownloads (gh : GithubStats) (sandboxed : Bool)
    (tag : String) (net : List MockCall) : Except JsError Int × List Request :=
  match gh.getRelease sandboxed tag net with
  | (Except.error e, reqs) => (Except.error e, reqs)
  | (Except.ok rel, reqs) => (downloadsOf rel, reqs)

/-- `getLatestReleaseDownloads()`. -/
def GithubStats.getLatestReleaseDownloads (gh : GithubStats) (sandboxed : Bool)
    (net : List MockCall) : Except JsError Int × List Request :=
  match gh.getLatestRelease sandboxed net with
  | (Except.error e, reqs) => (Except.error e, reqs)
  | (Except.ok rel, reqs) => (downloadsOf rel, reqs)

/-! ### One-step unfolding lemmas for the fetcher -/

theorem fetchGo_step_next (s : Bool) (t : String) (url : String)
    (resp : MockResponse) (rest : List MockCall) (hok : resp.ok = true)
    (u : String) (hnext : resp.link.bind matchNextRel = some u)
    (v : JsonVal) (hbody : resp.body = JsonBody.jsonVal v) :
    fetchGo s t url (MockCall.response resp :: rest) =
      match fetchGo s t u rest with
      | (Except.error e, reqs) => (Except.error e, mkRequest s t url :: reqs)
      | (Except.ok tailRecords, reqs) =>
        (Except.ok (normalizeBody v ++ tailRecords), mkRequest s t url :: reqs) := by
  obtain ⟨ok, lnk, body⟩ := resp
  simp only at hok hnext hbody
  subst hok; subst hbody
  simp [fetchGo, hnext]

theorem fetchGo_step_last (s : Bool) (t : String) (url : String)
    (resp : MockResponse) (rest : List MockCall) (hok : resp.ok = true)
    (hnext : resp.link.bind matchNextRel = none)
    (v : JsonVal) (hbody : resp.body = JsonBody.jsonVal v) :
    fetchGo s t url (MockCall.response resp :: rest) =
      (Except.ok (normalizeBody v), [mkRequest s t url]) := by
  obtain ⟨ok, lnk, body⟩ := resp
  simp only at hok hnext hbody
  subst hok; subst hbody
  simp [fetchGo, hnext]

/-! ### Pagination chains -/

/-- One page of a pagination chain as served by the mock transport: its list
of records and the value of its `link` response header (if any). -/
structure PageSpec where
  records : List JsonObj
  link : Option String
deriving Repr, DecidableEq

/-- The successful mock response serving one page. -/
def pageCall (p : PageSpec) : MockCall :=
  MockCall.response ⟨true, p.link, JsonBody.jsonVal (JsonVal.arr p.records)⟩

/-- The mock transport queue serving a chain of pages in order. -/
def mkNet (pages : List PageSpec) : List MockCall := pages.map pageCall

/-- The continuation URL the fetcher extracts from the `link` header of a page. -/
def nextOf (p : PageSpec) : Option String := p.link.bind matchNextRel

/-- A well-formed N-page chain: every page except the last carries a
`link` header from which a `rel="next"` URL is extracted, and the last
page yields no continuation. -/
def chainOk : List PageSpec → Prop
  | [] => True
  | [p] => nextOf p = none
  | p :: q :: rest => (nextOf p).isSome = true ∧ chainOk (q :: rest)

/-- The URLs requested while walking a chain starting from `url`: each
subsequent URL is discovered from the `link` header of the previous page. -/
def chainUrls (url : String) : List PageSpec → List String
  | [] => []
  | [_] => [url]
  | p :: q :: rest => url :: chainUrls ((nextOf p).getD ("")) (q :: rest)

theorem chainUrls_length (pages : List PageSpec) :
    ∀ url : String, (chainUrls url pages).length = pages.length := by
  induction pages with
  | nil => intro url; rfl
  | cons p ps ih =>
    intro url
    cases ps with
    | nil => rfl
    | cons q rest => simp [chainUrls, ih]

/-- Walking a well-formed chain succeeds, returns the page records
concatenated first-page-first, and logs exactly the chain URLs as
requests, in order. -/
theorem fetchGo_chain (s : Bool) (t : String) (pages : List PageSpec) :
    ∀ url : String, pages ≠ [] → chainOk pages →
    fetchGo s t url (mkNet pages) =
      (Except.ok (pages.map PageSpec.records).flatten,
       (chainUrls url pages).map (mkRequest s t)) := by
  induction pages with
  | nil => intro url h _; exact absurd rfl h
  | cons p ps ih =>
    intro url _ hchain
    cases ps with
    | nil =>
      have hnone : nextOf p = none := hchain
      rw [nextOf] at hnone
      simp [mkNet, pageCall, fetchGo, hnone, normalizeBody, chainUrls]
    | cons q rest =>
      have hchain2 : (nextOf p).isSome = true ∧ chainOk (q :: rest) := hchain
      obtain ⟨hsome, hrest⟩ := hchain2
      obtain ⟨u, hu⟩ := Option.isSome_iff_exists.mp hsome
      have hu2 : p.link.bind matchNextRel = some u := hu
      have hrec := ih u (by simp) hrest
      have hmk : mkNet (p :: q :: rest) = MockCall.response
          ⟨true, p.link, JsonBody.jsonVal (JsonVal.arr p.records)⟩ :: mkNet (q :: rest) := rfl
      rw [hmk, fetchGo_step_next s t url _ _ rfl u hu2 _ rfl, hrec]
      simp [normalizeBody, chainUrls, nextOf, hu, hu2]

/-- Walking a prefix of pages that all advertise a continuation and then
hitting a faulty call (a rejected request, or a response whose body fails
to parse) propagates the error value of that fault unchanged. -/
theorem fetchGo_chain_fault (s : Bool) (t : String) (pages : List PageSpec) :
    ∀ (url : String) (fault : MockCall) (ferr : String),
    (∀ p ∈ pages, (nextOf p).isSome = true) →
    (fault = MockCall.reject ferr ∨
      fault = MockCall.response ⟨true, none, JsonBody.invalid ferr⟩) →
    (fetchGo s t url (mkNet pages ++ [fault])).1 = Except.error (JsError.raw ferr) := by
  induction pages with
  | nil =>
    intro url fault ferr _ hf
    rcases hf with hf | hf <;> subst hf <;> simp [mkNet, fetchGo]
  | cons p ps ih =>
    intro url fault ferr hall hf
    obtain ⟨u, hu⟩ := Option.isSome_iff_exists.mp (hall p (by simp))
    have hu2 : p.link.bind matchNextRel = some u := hu
    have hmk : mkNet (p :: ps) ++ [fault] = MockCall.response
        ⟨true, p.link, JsonBody.jsonVal (JsonVal.arr p.records)⟩ ::
          (mkNet ps ++ [fault]) := rfl
    rw [hmk, fetchGo_step_next s t url _ _ rfl u hu2 _ rfl]
    have hrec := ih u fault ferr (fun q hq => hall q (by simp [hq])) hf
    rcases hres : fetchGo s t u (mkNet ps ++ [fault]) with ⟨res, reqs⟩
    rw [hres] at hrec
    simp only at hrec
    subst hrec
    simp

/-- Every run of the fetcher logs only requests of the shape
`mkRequest sandboxed token u` for the URLs it visits. -/
theorem fetchGo_requests_map (s : Bool) (t : String) :
    ∀ (net : List MockCall) (url : String), ∃ urls : List String,
    (fetchGo s t url net).2 = urls.map (mkRequest s t) := by
  intro net
  induction net with
  | nil => intro url; exact ⟨[url], rfl⟩
  | cons c rest ih =>
    intro url
    cases c with
    | reject e => exact ⟨[url], rfl⟩
    | response resp =>
      obtain ⟨ok, lnk, body⟩ := resp
      cases ok
      · cases body with
        | jsonVal v => exact ⟨[url], rfl⟩
        | invalid e => exact ⟨[url], rfl⟩
      · rcases hnl : lnk.bind matchNextRel with _ | u
        · exact ⟨[url], by cases body <;> simp [fetchGo, hnl]⟩
        · obtain ⟨urls, hurls⟩ := ih u
          rcases hres : fetchGo s t u rest with ⟨res, reqs⟩
          rw [hres] at hurls
          simp only at hurls
          refine ⟨url :: urls, ?_⟩
          cases res <;> cases body <;> simp [fetchGo, hnl, hres, hurls]

/-- `assets.reduce((acc, asset) => acc + asset.download_count, 0)` computes
the sum of the download counters. -/
theorem sumDownloads_eq (assets : List GithubAsset) :
    sumDownloads assets = (assets.map GithubAsset.download_count).sum := by
  have h : ∀ acc : Int, assets.foldl (fun a x => a + x.download_count) acc =
      acc + (assets.map GithubAsset.download_count).sum := by
    induction assets with
    | nil => intro acc; simp
    | cons a as ih => intro acc; simp [ih, add_assoc]
  simpa [sumDownloads] using h 0

/-- The total as the specification states it: the sum over all releases of
the sum of each download counter (an absent asset list contributing its default
empty value only when every release in fact carries one). -/
def specTotal (rs : List JsonObj) : Int :=
  (rs.map (fun r => ((r.assets.getD ([])).map GithubAsset.download_count).sum)).sum

theorem reduceTotal_eq (rs : List JsonObj) :
    ∀ acc : Int, (∀ r ∈ rs, r.assets.isSome = true) →
    reduceTotal rs acc = Except.ok (acc + specTotal rs) := by
  induction rs with
  | nil => intro acc _; simp [reduceTotal, specTotal]
  | cons r rest ih =>
    intro acc hall
    obtain ⟨as, has⟩ := Option.isSome_iff_exists.mp (hall r (by simp))
    simp [reduceTotal, has, ih _ (fun q hq => hall q (by simp [hq])), specTotal,
      sumDownloads_eq, add_assoc]

/-! ### Concrete fixtures (mirroring the test-suite data) -/

/-- A release object carrying assets with the given download counters. -/
def relObj (counts : List Int) : JsonObj :=
  ⟨none, some (counts.map (fun c => ⟨c⟩))⟩

/-- A client built like `new GithubStats(foo, bar)` in Node with no
environment token. -/
def ghEx : GithubStats := GithubStats.create false none ("foo") ("bar") ("")

/-- A three-page chain with the link headers of the pagination test (extra
`prev`/`last`/`first` relations included). -/
def pagesEx : List PageSpec :=
  [⟨[relObj [100, 200]],
    some (("<https://api.github.com/repositories/1/releases?page=2>; rel=\"next\", <https://api.github.com/repositories/1/releases?page=3>; rel=\"last\""))⟩,
   ⟨[relObj [110, 210]],
    some (("<https://api.github.com/repositories/1/releases?page=1>; rel=\"prev\", <https://api.github.com/repositories/1/releases?page=3>; rel=\"next\", <https://api.github.com/repositories/1/releases?page=3>; rel=\"last\", <https://api.github.com/repositories/1/releases?page=1>; rel=\"first\""))⟩,
   ⟨[relObj [1]],
    some (("<https://api.github.com/repositories/1/releases?page=2>; rel=\"prev\", <https://api.github.com/repositories/1/releases?page=1>; rel=\"first\""))⟩]

set_option maxRecDepth 40000 in
theorem chainOk_pagesEx : chainOk pagesEx := ⟨rfl, rfl, rfl⟩

/-- A single-page listing responding with two releases. -/
def netOnePage : List MockCall :=
  [MockCall.response
    ⟨true, none, JsonBody.jsonVal (JsonVal.arr [relObj [100, 200], relObj [110, 210]])⟩]

/-- The records served by `netOnePage`. -/
def rsEx : List JsonObj := [relObj [100, 200], relObj [110, 210]]

/-- Two pages that both advertise a continuation, for fault-injection. -/
def faultPages : List PageSpec :=
  [⟨[relObj [100, 200]], some (("<u2>; rel=\"next\""))⟩,
   ⟨[relObj [110, 210]], some (("<u3>; rel=\"next\""))⟩]

/-- A 404-style response whose body is an object with a message field. -/
def notFoundResp : MockCall :=
  MockCall.response ⟨false, none, JsonBody.jsonVal (JsonVal.obj ⟨some ("Not Found"), none⟩)⟩

/-- A successful response whose body is the empty JSON array. -/
def emptyArrayResp : MockCall :=
  MockCall.response ⟨true, none, JsonBody.jsonVal (JsonVal.arr [])⟩

/-! ### Claims -/

/-- C1: for every list of releases returned by `getAllReleases`,
`getTotalDownloads` returns the sum of the `download_count` of every asset
across all releases, computed by integer addition with an initial
accumulator of zero; a release whose asset collection is empty contributes
0, and an empty release list gives total 0. -/
theorem getTotalDownloads_sums (gh : GithubStats) (s : Bool) (net : List MockCall)
    (rs : List JsonObj)
    (hok : (gh.getAllReleases s net).1 = Except.ok rs)
    (hass : ∀ r ∈ rs, r.assets.isSome = true) :
    (gh.getTotalDownloads s net).1 = Except.ok (specTotal rs) ∧
    (∀ r ∈ rs, r.assets = some ([]) →
      ((r.assets.getD ([])).map GithubAsset.download_count).sum = 0) ∧
    (rs = [] → (gh.getTotalDownloads s net).1 = Except.ok 0) := by
  rcases hga : gh.getAllReleases s net with ⟨res, reqs⟩
  rw [hga] at hok
  simp only at hok
  subst hok
  have htot : (gh.getTotalDownloads s net).1 = Except.ok (specTotal rs) := by
    simp [GithubStats.getTotalDownloads, hga, reduceTotal_eq rs 0 hass]
  refine ⟨htot, ?_, ?_⟩
  · intro r _ hre; simp [hre]
  · intro hnil; subst hnil; simpa [specTotal] using htot

/-- C1 witness at a concrete one-page listing: 100+200+110+210 = 620. -/
theorem getTotalDownloads_sums_witness :
    (ghEx.getAllReleases false netOnePage).1 = Except.ok rsEx ∧
    (∀ r ∈ rsEx, r.assets.isSome = true) ∧
    (ghEx.getTotalDownloads false netOnePage).1 = Except.ok (specTotal rsEx) ∧
    specTotal rsEx = 620 :=
  ⟨rfl, by decide,
   (getTotalDownloads_sums ghEx false netOnePage rsEx rfl (by decide)).1, by decide⟩

/-- C2: for every chain of N pages in which each page except the last
carries a link header with a `rel="next"` relation, the paginated fetcher
returns the concatenation of the page record lists, current page first,
and the length of the result equals the sum of the per-page counts. -/
theorem fetch_concatenates_pages (s : Bool) (t : String) (pages : List PageSpec)
    (url : String) (hne : pages ≠ []) (hchain : chainOk pages) :
    (fetchGo s t url (mkNet pages)).1 =
      Except.ok ((pages.map PageSpec.records).flatten) ∧
    ((pages.map PageSpec.records).flatten).length =
      (pages.map (fun p => p.records.length)).sum := by
  constructor
  · rw [fetchGo_chain s t pages url hne hchain]
  · simp [Function.comp_def]

/-- C2 witness on the three-page fixture. -/
theorem fetch_concatenates_pages_witness :
    pagesEx ≠ [] ∧ chainOk pagesEx ∧
    (fetchGo false ("") ("page1") (mkNet pagesEx)).1 =
      Except.ok ((pagesEx.map PageSpec.records).flatten) :=
  ⟨by decide, chainOk_pagesEx,
   (fetch_concatenates_pages false ("") pagesEx ("page1") (by decide) chainOk_pagesEx).1⟩

/-- C3: walking a chain issues exactly one request per page; the requests
appear in increasing page order, and the URL of each request after the
first is the continuation extracted from the link header of the previous
response before it is issued; a single-page listing issues exactly one
request. -/
theorem fetch_one_request_per_page (s : Bool) (t : String)
    (pages : List PageSpec) (url : String) (hne : pages ≠ [])
    (hchain : chainOk pages) :
    (fetchGo s t url (mkNet pages)).2 = (chainUrls url pages).map (mkRequest s t) ∧
    (fetchGo s t url (mkNet pages)).2.length = pages.length ∧
    (∀ p q rest, pages = p :: q :: rest →
      (fetchGo s t url (mkNet pages)).2 =
        mkRequest s t url ::
          (fetchGo s t ((nextOf p).getD ("")) (mkNet (q :: rest))).2) ∧
    (∀ p, pages = [p] → (fetchGo s t url (mkNet pages)).2 = [mkRequest s t url]) := by
  refine ⟨?_, ?_, ?_, ?_⟩
  · rw [fetchGo_chain s t pages url hne hchain]
  · rw [fetchGo_chain s t pages url hne hchain]
    simp [chainUrls_length]
  · intro p q rest heq
    subst heq
    rw [fetchGo_chain s t _ url hne hchain,
      fetchGo_chain s t (q :: rest) ((nextOf p).getD ("")) (by simp)
        (And.right hchain)]
    simp [chainUrls]
  · intro p heq
    subst heq
    rw [fetchGo_chain s t _ url hne hchain]
    simp [chainUrls]

/-- C3 witness: three pages, three requests, in chain order. -/
theorem fetch_one_request_per_page_witness :
    pagesEx ≠ [] ∧ chainOk pagesEx ∧
    (fetchGo false ("") ("page1") (mkNet pagesEx)).2.length = pagesEx.length :=
  ⟨by decide, chainOk_pagesEx,
   (fetch_one_request_per_page false ("") pagesEx ("page1") (by decide)
     chainOk_pagesEx).2.1⟩

/-- C4: a non-success response whose body is a JSON object with a `message`
field fails the operation with a `GithubError` whose display text is
exactly that message and whose name is `GithubError`; in particular
`getRelease` on a missing tag fails with text exactly Not Found. -/
theorem fetch_service_error (s : Bool) (t : String) (url : String)
    (lnk : Option String) (o : JsonObj) (m : String) (rest : List MockCall)
    (hm : o.message = some m) :
    (fetchGo s t url
        (MockCall.response ⟨false, lnk, JsonBody.jsonVal (JsonVal.obj o)⟩ :: rest)).1 =
      Except.error (JsError.githubError m) ∧
    (JsError.githubError m).text = m ∧
    (JsError.githubError m).errName = ("GithubError") ∧
    (∀ (gh : GithubStats) (tag : String),
      (gh.getRelease s tag
          (MockCall.response ⟨false, lnk, JsonBody.jsonVal (JsonVal.obj o)⟩ :: rest)).1 =
        Except.error (JsError.githubError m)) := by
  have hfe : ∀ tk u : String, fetchGo s tk u
      (MockCall.response ⟨false, lnk, JsonBody.jsonVal (JsonVal.obj o)⟩ :: rest) =
      (Except.error (JsError.githubError m), [mkRequest s tk u]) := by
    intro tk u
    simp [fetchGo, jsonMessage, hm]
  refine ⟨by rw [hfe t url], rfl, rfl, ?_⟩
  intro gh tag
  simp [GithubStats.getRelease, hfe gh.token (gh.releaseTagUrl tag)]

/-- C4 witness: a 404 with body message Not Found fails `getRelease` with
display text exactly Not Found. -/
theorem fetch_service_error_witness :
    (⟨some ("Not Found"), none⟩ : JsonObj).message = some ("Not Found") ∧
    (ghEx.getRelease false ("v9.9.9") [notFoundResp]).1 =
      Except.error (JsError.githubError ("Not Found")) ∧
    (JsError.githubError ("Not Found")).text = ("Not Found") :=
  ⟨rfl,
   (fetch_service_error false ("") ("u") none ⟨some ("Not Found"), none⟩
     ("Not Found") [] rfl).2.2.2 ghEx ("v9.9.9"),
   (fetch_service_error false ("") ("u") none ⟨some ("Not Found"), none⟩
     ("Not Found") [] rfl).2.1⟩

/-- C5: a transport fault — a rejected network call, or a response body
that fails to parse — propagates its error value unchanged to the caller,
and a fault at any page of a pagination chain aborts the entire
aggregation: the result is that error, never a partial record list. -/
theorem fetch_fault_propagates (s : Bool) (t : String) (pages : List PageSpec)
    (url : String) (fault : MockCall) (ferr : String)
    (hall : ∀ p ∈ pages, (nextOf p).isSome = true)
    (hf : fault = MockCall.reject ferr ∨
      fault = MockCall.response ⟨true, none, JsonBody.invalid ferr⟩) :
    (fetchGo s t url (mkNet pages ++ [fault])).1 = Except.error (JsError.raw ferr) ∧
    (JsError.raw ferr).text = ferr :=
  ⟨fetchGo_chain_fault s t pages url fault ferr hall hf, rfl⟩

/-- C5 witness: a rejection after two successfully chained pages surfaces
the same error value, with no partial result. -/
theorem fetch_fault_propagates_witness :
    (∀ p ∈ faultPages, (nextOf p).isSome = true) ∧
    (fetchGo false ("") ("u1")
        (mkNet faultPages ++ [MockCall.reject ("Network error")])).1 =
      Except.error (JsError.raw ("Network error")) :=
  ⟨by decide,
   (fetch_fault_propagates false ("") faultPages ("u1") _ ("Network error")
     (by decide) (Or.inl rfl)).1⟩

/-- C6: the credential is resolved once at construction: an explicitly
supplied token parameter takes precedence over the environment token;
otherwise, outside a sandboxed (browser-like) environment, the environment
token is the fallback; otherwise the credential is empty.  The resolved
value is the immutable `token` field of the instance. -/
theorem create_resolves_token (sandboxed : Bool) (envToken : Option String)
    (owner repo tok : String) :
    (tok ≠ ("") → (GithubStats.create sandboxed envToken owner repo tok).token = tok) ∧
    (tok = ("") → sandboxed = false →
      (GithubStats.create sandboxed envToken owner repo tok).token = envToken.getD ("")) ∧
    (tok = ("") → sandboxed = true →
      (GithubStats.create sandboxed envToken owner repo tok).token = ("")) := by
  refine ⟨?_, ?_, ?_⟩
  · intro h
    cases sandboxed <;> simp [GithubStats.create, h]
  · intro h hs
    subst h; subst hs
    by_cases he : envToken.getD ("") = ("") <;> simp [GithubStats.create, he]
  · intro h hs
    subst h; subst hs
    simp [GithubStats.create]

/-- C6 witness: an explicit token wins over the environment token; with an
empty parameter outside a sandbox the environment token is used. -/
theorem create_resolves_token_witness :
    ("param") ≠ ("") ∧
    (GithubStats.create false (some ("envtok")) ("foo") ("bar") ("param")).token =
      ("param") ∧
    (GithubStats.create false (some ("envtok")) ("foo") ("bar") ("")).token =
      ("envtok") :=
  ⟨by decide,
   (create_resolves_token false (some ("envtok")) ("foo") ("bar") ("param")).1
     (by decide),
   (create_resolves_token false (some ("envtok")) ("foo") ("bar") ("")).2.1 rfl rfl⟩

/-- C7: every request the fetcher sends is a GET with no body; its headers
contain `Authorization: token <credential>` iff the resolved credential is
non-empty and the `User-Agent` client signature iff running outside a
sandboxed environment; no other headers are set. -/
theorem requests_shape (s : Bool) (t : String) (url : String)
    (net : List MockCall) (r : Request) (hr : r ∈ (fetchGo s t url net).2) :
    r.method = ("GET") ∧ r.body = none ∧
    (((("Authorization"), ("token ") ++ t)) ∈ r.headers ↔ t ≠ ("")) ∧
    (((("User-Agent"), ("github-release-stats"))) ∈ r.headers ↔ s = false) ∧
    (∀ h ∈ r.headers,
      h = ((("User-Agent"), ("github-release-stats"))) ∨
      h = ((("Authorization"), ("token ") ++ t))) := by
  obtain ⟨urls, hurls⟩ := fetchGo_requests_map s t net url
  rw [hurls] at hr
  obtain ⟨u, _, rfl⟩ := List.mem_map.mp hr
  refine ⟨rfl, rfl, ?_, ?_, ?_⟩
  · by_cases ht : t = ("") <;> cases s <;> simp [mkRequest, buildHeaders, ht]
  · by_cases ht : t = ("") <;> cases s <;> simp [mkRequest, buildHeaders, ht]
  · intro h hh
    by_cases ht : t = ("") <;> cases s <;>
      simp [mkRequest, buildHeaders, ht] at hh <;> simp [hh]

/-- C7 witness: the single request of a one-call run is a GET carrying both
headers for a non-empty credential outside a sandbox. -/
theorem requests_shape_witness :
    mkRequest false ("tok") ("u") ∈ (fetchGo false ("tok") ("u") []).2 ∧
    (mkRequest false ("tok") ("u")).method = ("GET") ∧
    ((("Authorization"), ("token ") ++ ("tok")) ∈
        (mkRequest false ("tok") ("u")).headers ↔ ("tok") ≠ ("")) :=
  ⟨by decide,
   (requests_shape false ("tok") ("u") [] (mkRequest false ("tok") ("u"))
     (by decide)).1,
   (requests_shape false ("tok") ("u") [] (mkRequest false ("tok") ("u"))
     (by decide)).2.2.1⟩

/-- C8: a successful response is normalized to a flat ordered array — a
lone JSON object is wrapped as a one-element array, an array is kept as-is
— and `getRelease` and `getLatestRelease` unwrap the normalized array to
its sole element. -/
theorem fetch_normalizes_body (s : Bool) (t : String) (url : String)
    (lnk : Option String) (hl : lnk.bind matchNextRel = none)
    (o : JsonObj) (es : List JsonObj) :
    (fetchGo s t url
        [MockCall.response ⟨true, lnk, JsonBody.jsonVal (JsonVal.obj o)⟩]).1 =
      Except.ok [o] ∧
    (fetchGo s t url
        [MockCall.response ⟨true, lnk, JsonBody.jsonVal (JsonVal.arr es)⟩]).1 =
      Except.ok es ∧
    (∀ (gh : GithubStats) (tag : String),
      (gh.getRelease s tag
          [MockCall.response ⟨true, lnk, JsonBody.jsonVal (JsonVal.obj o)⟩]).1 =
        Except.ok (some o) ∧
      (gh.getLatestRelease s
          [MockCall.response ⟨true, lnk, JsonBody.jsonVal (JsonVal.obj o)⟩]).1 =
        Except.ok (some o)) := by
  refine ⟨?_, ?_, ?_⟩
  · rw [fetchGo_step_last s t url _ [] rfl hl _ rfl]; rfl
  · rw [fetchGo_step_last s t url _ [] rfl hl _ rfl]; rfl
  · intro gh tag
    constructor
    · simp [GithubStats.getRelease,
        fetchGo_step_last s gh.token (gh.releaseTagUrl tag)
          ⟨true, lnk, JsonBody.jsonVal (JsonVal.obj o)⟩ [] rfl hl
          (JsonVal.obj o) rfl, normalizeBody]
    · simp [GithubStats.getLatestRelease,
        fetchGo_step_last s gh.token gh.latestReleaseUrl
          ⟨true, lnk, JsonBody.jsonVal (JsonVal.obj o)⟩ [] rfl hl
          (JsonVal.obj o) rfl, normalizeBody]

/-- C8 witness: a lone release object is wrapped as a one-element array and
unwrapped again by `getRelease`. -/
theorem fetch_normalizes_body_witness :
    ((none : Option String).bind matchNextRel = none) ∧
    (fetchGo false ("") ("u")
        [MockCall.response ⟨true, none, JsonBody.jsonVal (JsonVal.obj (relObj [7]))⟩]).1 =
      Except.ok [relObj [7]] ∧
    (ghEx.getRelease false ("v1.0.0")
        [MockCall.response ⟨true, none, JsonBody.jsonVal (JsonVal.obj (relObj [7]))⟩]).1 =
      Except.ok (some (relObj [7])) :=
  ⟨rfl,
   (fetch_normalizes_body false ("") ("u") none rfl (relObj [7]) []).1,
   ((fetch_normalizes_body false ("") ("u") none rfl (relObj [7]) []).2.2 ghEx
     ("v1.0.0")).1⟩

/-- C9: when a successful response normalizes to the empty array,
`getRelease` and `getLatestRelease` return the undefined first element of
that empty array instead of failing with a typed error, and the download
aggregations built on them then fail reading a field of undefined. -/
theorem empty_array_gives_undefined (gh : GithubStats) (s : Bool) (tag : String) :
    (gh.getRelease s tag [emptyArrayResp]).1 = Except.ok none ∧
    (gh.getLatestRelease s [emptyArrayResp]).1 = Except.ok none ∧
    (gh.getReleaseDownloads s tag [emptyArrayResp]).1 =
      Except.error
        (JsError.raw ("TypeError: Cannot read properties of undefined (reading assets)")) ∧
    (gh.getLatestReleaseDownloads s [emptyArrayResp]).1 =
      Except.error
        (JsError.raw ("TypeError: Cannot read properties of undefined (reading assets)")) := by
  have h1 : (gh.getRelease s tag [emptyArrayResp]).1 = Except.ok none := by
    simp [GithubStats.getRelease, emptyArrayResp,
      fetchGo_step_last s gh.token (gh.releaseTagUrl tag)
        ⟨true, none, JsonBody.jsonVal (JsonVal.arr [])⟩ [] rfl rfl
        (JsonVal.arr []) rfl, normalizeBody]
  have h2 : (gh.getLatestRelease s [emptyArrayResp]).1 = Except.ok none := by
    simp [GithubStats.getLatestRelease, emptyArrayResp,
      fetchGo_step_last s gh.token gh.latestReleaseUrl
        ⟨true, none, JsonBody.jsonVal (JsonVal.arr [])⟩ [] rfl rfl
        (JsonVal.arr []) rfl, normalizeBody]
  refine ⟨h1, h2, ?_, ?_⟩
  · rcases hres : gh.getRelease s tag [emptyArrayResp] with ⟨res, reqs⟩
    rw [hres] at h1
    simp only at h1
    subst h1
    simp [GithubStats.getReleaseDownloads, hres, downloadsOf]
  · rcases hres : gh.getLatestRelease s [emptyArrayResp] with ⟨res, reqs⟩
    rw [hres] at h2
    simp only at h2
    subst h2
    simp [GithubStats.getLatestReleaseDownloads, hres, downloadsOf]

/-- C10: outside a sandbox, constructing with an explicitly supplied
empty-string token resolves the credential to the environment token — or
empty when the environment supplies none — rather than forcing
unauthenticated requests. -/
theorem create_empty_param_env_fallback (envToken : Option String)
    (owner repo : String) :
    (GithubStats.create false envToken owner repo ("")).token = envToken.getD ("") ∧
    (GithubStats.create false none owner repo ("")).token = ("") := by
  constructor
  · by_cases he : envToken.getD ("") = ("") <;> simp [GithubStats.create, he]
  · simp [GithubStats.create]

end GhStats
